import Mathlib

/-!
Shallow embedding of the vnpy_algotrading execution core
(`template.py`, `engine.py`, `algos/twap_algo.py`, `algos/best_limit_algo.py`)
and proofs about it.  Numeric fields that are Python floats are embedded as
rationals; Python dicts keyed by strings are embedded as association lists
with dict semantics (unique keys: insertion replaces, pop removes the key).
-/

namespace VnpyAlgo

/-- Status enum `AlgoStatus` from `base.py`. -/
inductive AlgoStatus where
  | running
  | paused
  | stopped
  | finished
deriving DecidableEq, Repr

/-- The fields of `vnpy.trader.object.TickData` that the core reads. -/
structure TickData where
  ask_price_1 : ℚ
  bid_price_1 : ℚ
deriving DecidableEq, Repr

/-- The fields of `vnpy.trader.object.OrderData` that the core reads:
`vt_orderid` and the result of `order.is_active()`. -/
structure OrderData where
  vt_orderid : String
  active : Bool
deriving DecidableEq, Repr

/-- The fields of `vnpy.trader.object.TradeData` that the core reads. -/
structure TradeData where
  vt_orderid : String
  price : ℚ
  volume : ℚ
deriving DecidableEq, Repr

/-- Python-dict insertion `d[k] = v` on an association list: replace the
entry if the key is present, otherwise append. -/
def dictInsert (k : String) (v : OrderData)
    (l : List (String × OrderData)) : List (String × OrderData) :=
  if l.any (fun e => e.1 = k) then
    l.map (fun e => if e.1 = k then (k, v) else e)
  else
    l ++ [(k, v)]

/-- Python-dict `d.pop(k)` on an association list: remove the key. -/
def dictPop (k : String) (l : List (String × OrderData)) :
    List (String × OrderData) :=
  l.filter (fun e => e.1 ≠ k)

/-- Mutable per-instance state of `AlgoTemplate` (`template.py` lines 34-48),
restricted to the fields the claims are about.  `traded` is `filledVolume`,
`traded_price` is `filledAveragePrice`, `volume` is the parent order's
`totalVolume`, `price` its limit price. -/
structure AlgoState where
  status : AlgoStatus
  traded : ℚ
  traded_price : ℚ
  volume : ℚ
  price : ℚ
  active_orders : List (String × OrderData)
deriving DecidableEq, Repr

/-- Constructor `AlgoTemplate.__init__`: a freshly constructed instance is `Paused` with
zero fill statistics and an empty child-order cache. -/
def mkAlgoState (volume price : ℚ) : AlgoState :=
  { status := .paused
    traded := 0
    traded_price := 0
    volume := volume
    price := price
    active_orders := [] }

/-- Embedding of `AlgoTemplate.update_tick`: forwards to the strategy `on_tick` callback
iff the status is Running; the template itself changes no state.  The
returned boolean records whether the callback was invoked. -/
def update_tick (s : AlgoState) (_t : TickData) : AlgoState × Bool :=
  if s.status = .running then (s, true) else (s, false)

/-- Embedding of `AlgoTemplate.update_timer`: forwards to the strategy `on_timer` callback
iff the status is Running. -/
def update_timer (s : AlgoState) : AlgoState × Bool :=
  if s.status = .running then (s, true) else (s, false)

/-- Embedding of `AlgoTemplate.update_order`: cache the order if it is active, drop it
from the cache if it is inactive and cached, then always invoke the strategy
`on_order` callback (the boolean is always `true`). -/
def update_order (s : AlgoState) (o : OrderData) : AlgoState × Bool :=
  let cache :=
    if o.active then
      dictInsert o.vt_orderid o s.active_orders
    else if s.active_orders.any (fun e => e.1 = o.vt_orderid) then
      dictPop o.vt_orderid s.active_orders
    else
      s.active_orders
  ({ s with active_orders := cache }, true)

/-- Embedding of `AlgoTemplate.update_trade` (template.py lines 64-70):
`cost = traded_price * traded + trade.price * trade.volume`,
`traded += trade.volume`, `traded_price = cost / traded`, then always
invoke the strategy `on_trade` callback. -/
def update_trade (s : AlgoState) (t : TradeData) : AlgoState × Bool :=
  let cost : ℚ := s.traded_price * s.traded + t.price * t.volume
  let traded' : ℚ := s.traded + t.volume
  ({ s with traded := traded', traded_price := cost / traded' }, true)

/-- Embedding of `AlgoTemplate.start`: sets the status to Running, with no guard on the
previous status. -/
def start (s : AlgoState) : AlgoState :=
  { s with status := .running }

/-- Embedding of `AlgoTemplate.pause`. -/
def pause (s : AlgoState) : AlgoState :=
  { s with status := .paused }

/-- Embedding of `AlgoTemplate.resume`. -/
def resume (s : AlgoState) : AlgoState :=
  { s with status := .running }

/-- Embedding of `AlgoTemplate.cancel_all`: when the cache is empty, do nothing;
otherwise issue one engine cancel request per cached order id.  The state is
returned unchanged together with the list of requested cancellations. -/
def cancel_all (s : AlgoState) : AlgoState × List String :=
  if s.active_orders = [] then (s, [])
  else (s, s.active_orders.map (fun e => e.1))

/-- Embedding of `AlgoTemplate.stop`: force the status to Stopped and request
cancellation of all cached child orders. -/
def stop (s : AlgoState) : AlgoState × List String :=
  cancel_all { s with status := .stopped }

/-- Embedding of `AlgoTemplate.finish`: force the status to Finished and request
cancellation of all cached child orders. -/
def finish (s : AlgoState) : AlgoState × List String :=
  cancel_all { s with status := .finished }

/-- Embedding of `AlgoTemplate.buy` / `AlgoTemplate.sell`: refuse unless the status is
Running; otherwise delegate to the engine's `send_order`.  The result is
`none` when refused and `some (price, volume)` for the submitted request. -/
def requestOrder (s : AlgoState) (price volume : ℚ) : Option (ℚ × ℚ) :=
  if s.status ≠ .running then none else some (price, volume)

/-- Running a list of trade events through `update_trade`, starting from a
given state (the state evolution of one instance that receives only trade
events). -/
def runTrades (s : AlgoState) (ts : List TradeData) : AlgoState :=
  ts.foldl (fun a t => (update_trade a t).1) s

/-- Sum of the quantities of a list of trades. -/
def tradeVolumeSum (ts : List TradeData) : ℚ :=
  (ts.map (fun t => t.volume)).sum

/-- Sum of price·quantity over a list of trades. -/
def tradeCostSum (ts : List TradeData) : ℚ :=
  (ts.map (fun t => t.price * t.volume)).sum

/-- External events and engine operations that can reach one instance, as
the engine delivers them (`engine.py`): lifecycle calls from the engine's
`pause_algo`/`resume_algo`/`stop_algo` and the strategy's own `finish`;
ticks and timer pulses fanned out by symbol/instance; a strategy-initiated
order placement (`buy`/`sell` going through `AlgoEngine.send_order`, which
records the returned order id in `orderid_algo_map`); and order/trade
events, which the engine forwards only when their `vt_orderid` is in
`orderid_algo_map`. -/
inductive Ev where
  | startEv
  | stopEv
  | pauseEv
  | resumeEv
  | finishEv
  | tickEv (t : TickData)
  | timerEv
  | placeEv (id : String) (price volume : ℚ)
  | orderEv (o : OrderData)
  | tradeEv (t : TradeData)
deriving DecidableEq, Repr

/-- One instance together with the engine's order-id routing entries that
point at it. -/
structure SysState where
  algo : AlgoState
  placed : List String
deriving DecidableEq, Repr

/-- Transition function of one instance under the engine's dispatch: the
template gates tick/timer on Running, `buy`/`sell` gate placement on
Running (the engine then records the order id), and order/trade events are
forwarded only for recorded order ids and are processed unconditionally by
`update_order`/`update_trade`. -/
def sysStep (s : SysState) : Ev → SysState
  | .startEv => { s with algo := start s.algo }
  | .stopEv => { s with algo := (stop s.algo).1 }
  | .pauseEv => { s with algo := pause s.algo }
  | .resumeEv => { s with algo := resume s.algo }
  | .finishEv => { s with algo := (finish s.algo).1 }
  | .tickEv t => { s with algo := (update_tick s.algo t).1 }
  | .timerEv => { s with algo := (update_timer s.algo).1 }
  | .placeEv id _price _volume =>
    if s.algo.status = .running then { s with placed := s.placed ++ [id] } else s
  | .orderEv o =>
    if s.placed.contains o.vt_orderid then
      { s with algo := (update_order s.algo o).1 }
    else s
  | .tradeEv t =>
    if s.placed.contains t.vt_orderid then
      { s with algo := (update_trade s.algo t).1 }
    else s

/-- Run a sequence of events from a state. -/
def sysRun (s : SysState) (evs : List Ev) : SysState :=
  evs.foldl sysStep s

/-- The initial system state: a freshly constructed instance, no routing
entries. -/
def sysInit (volume price : ℚ) : SysState :=
  { algo := mkAlgoState volume price, placed := [] }

/-- Total quantity of the trade events occurring in an event sequence
(processed or not). -/
def evTradeSum (evs : List Ev) : ℚ :=
  (evs.map (fun e => match e with | .tradeEv t => t.volume | _ => 0)).sum

/-- The trade quantity carried by an event (`0` for non-trade events). -/
def evVol : Ev → ℚ
  | .tradeEv t => t.volume
  | _ => 0

/-- Enum `vnpy.trader.constant.Direction`, restricted to the two values the
algorithms use. -/
inductive Direction where
  | long
  | short
deriving DecidableEq, Repr

/-- Embedding of `vnpy.trader.utility.round_to`: round a value to the nearest multiple
of `target` (the contract's minimum tradable increment).  The source rounds
through `Decimal`; ties never arise in the uses verified here. -/
def round_to (value target : ℚ) : ℚ :=
  ((round (value / target) : ℤ) : ℚ) * target

/-- State of `TwapAlgo` (`twap_algo.py`): the shared template state plus the
parameters `time` (total duration in pulses) and `interval`, the computed
slice size `order_volume`, and the two pulse counters. -/
structure TwapState where
  algo : AlgoState
  direction : Direction
  time : ℕ
  interval : ℕ
  order_volume : ℚ
  timer_count : ℕ
  total_count : ℕ
deriving DecidableEq, Repr

/-- Constructor `TwapAlgo.__init__`: `order_volume = volume / (time / interval)` rounded
to the contract's minimum increment (contract present), counters zero, base
state freshly constructed (Paused). -/
def mkTwapState (volume price : ℚ) (dir : Direction) (time interval : ℕ)
    (min_volume : ℚ) : TwapState :=
  { algo := mkAlgoState volume price
    direction := dir
    time := time
    interval := interval
    order_volume := round_to (volume / ((time : ℚ) / (interval : ℚ))) min_volume
    timer_count := 0
    total_count := 0 }

/-- Embedding of `TwapAlgo.on_timer` (twap_algo.py lines 59-88): increment both counters;
finish when `total_count >= time`; otherwise do nothing until
`timer_count` reaches `interval`, then reset it, read the latest tick
(`none` models an unavailable tick), cancel outstanding slices, and place a
slice of `min(order_volume, volume - traded)` at the limit price when the
touch price has crossed it.  The second component is the volume passed to
`buy`/`sell` when a placement is attempted. -/
def twap_on_timer (s : TwapState) (tick : Option TickData) : TwapState × Option ℚ :=
  let s := { s with timer_count := s.timer_count + 1, total_count := s.total_count + 1 }
  if s.time ≤ s.total_count then
    ({ s with algo := (finish s.algo).1 }, none)
  else if s.timer_count < s.interval then
    (s, none)
  else
    let s := { s with timer_count := 0 }
    match tick with
    | none => (s, none)
    | some tk =>
      let left : ℚ := s.algo.volume - s.algo.traded
      let order_volume : ℚ := min s.order_volume left
      match s.direction with
      | .long =>
        if tk.ask_price_1 ≤ s.algo.price then
          ((requestOrder s.algo s.algo.price order_volume).map (fun r => (s, r.2))).getD (s, none)
        else (s, none)
      | .short =>
        if s.algo.price ≤ tk.bid_price_1 then
          ((requestOrder s.algo s.algo.price order_volume).map (fun r => (s, r.2))).getD (s, none)
        else (s, none)

/-- Embedding of `AlgoTemplate.update_timer` specialised to a TWAP instance: the timer
callback runs iff the status is Running. -/
def twap_update_timer (s : TwapState) (tick : Option TickData) : TwapState × Option ℚ :=
  if s.algo.status = .running then twap_on_timer s tick else (s, none)

/-- Deliver `n` timer pulses to a TWAP instance, collecting for each
placement attempt the pulse number (1-based) at which it happened and the
volume requested. -/
def twapPulses (s : TwapState) (tick : Option TickData) : ℕ → TwapState × List (ℕ × ℚ)
  | 0 => (s, [])
  | n + 1 =>
    let prev := twapPulses s tick n
    let step := twap_update_timer prev.1 tick
    (step.1, prev.2 ++ (match step.2 with
      | some v => [(n + 1, v)]
      | none => []))

/-- The Time-Weighted Slicing scenario of the spec: total volume 100,
duration 100 pulses, interval 10 pulses, minimum increment 1, direction
long, limit price 10 — started by the engine immediately after
construction. -/
def twapScenarioInit : TwapState :=
  let s := mkTwapState 100 10 .long 100 10 1
  { s with algo := start s.algo }

/-- A tick whose touch price has crossed the scenario's limit price, so
that every slice boundary is a placement attempt. -/
def twapScenarioTick : TickData :=
  { ask_price_1 := 9, bid_price_1 := 9 }

/-- Run the scenario for `n` pulses. -/
def twapScenario (n : ℕ) : TwapState × List (ℕ × ℚ) :=
  twapPulses twapScenarioInit (some twapScenarioTick) n

/-- Constructor `BestLimitAlgo.__init__` (best_limit_algo.py lines 22-61): after the
shared construction, validate the slice-volume parameters; on failure log
and `finish()` the instance (status Finished) and return early. -/
def bestLimitInit (volume price min_volume max_volume : ℚ) : AlgoState :=
  let s := mkAlgoState volume price
  if min_volume ≤ 0 then (finish s).1
  else if max_volume < min_volume then (finish s).1
  else s

/-- Engine-level state (`engine.py` lines 31-35): the heap of created
instances keyed by name, the names registered in `self.algos`, the
symbol-interest sets `symbol_algo_map`, and the order-id routing index
`orderid_algo_map` (order id to owning instance name). -/
structure EngineState where
  instances : List (String × AlgoState)
  registered : List String
  symbol_map : List (String × List String)
  orderid_map : List (String × String)
deriving DecidableEq, Repr

/-- Look up an instance by name. -/
def lookupInstance (name : String) (l : List (String × AlgoState)) : Option AlgoState :=
  (l.find? (fun e => e.1 = name)).map (fun e => e.2)

/-- Look up the owner of an order id in `orderid_algo_map`. -/
def lookupOwner (id : String) (l : List (String × String)) : Option String :=
  (l.find? (fun e => e.1 = id)).map (fun e => e.2)

/-- Apply a state transformation to the named instance object. -/
def updInstance (name : String) (f : AlgoState → AlgoState)
    (l : List (String × AlgoState)) : List (String × AlgoState) :=
  l.map (fun e => if e.1 = name then (e.1, f e.2) else e)

/-- Embedding of `AlgoEngine.put_algo_event` (engine.py lines 252-266): when the updated
instance is still registered and its status is terminal, remove it from the
name map and from every symbol-interest set.  The order-id index and the
instance objects themselves are untouched; an update event is emitted
either way. -/
def put_algo_event (es : EngineState) (name : String) : EngineState :=
  match lookupInstance name es.instances with
  | none => es
  | some a =>
    if name ∈ es.registered ∧
        (a.status = .stopped ∨ a.status = .finished) then
      { es with
        registered := es.registered.filter (fun n => n ≠ name)
        symbol_map := es.symbol_map.map (fun p => (p.1, p.2.filter (fun n => n ≠ name))) }
    else es

/-- Embedding of `AlgoEngine.process_order_event` (engine.py lines 101-107): look the
order id up in `orderid_algo_map`; if found, forward to that instance's
`update_order`; otherwise drop.  The index itself is never modified. -/
def process_order_event (es : EngineState) (o : OrderData) : EngineState :=
  match lookupOwner o.vt_orderid es.orderid_map with
  | none => es
  | some name =>
    { es with instances := updInstance name (fun a => (update_order a o).1) es.instances }

/-- Embedding of `AlgoEngine.process_trade_event` (engine.py lines 93-99): same lookup,
forwarding to `update_trade`. -/
def process_trade_event (es : EngineState) (t : TradeData) : EngineState :=
  match lookupOwner t.vt_orderid es.orderid_map with
  | none => es
  | some name =>
    { es with instances := updInstance name (fun a => (update_trade a t).1) es.instances }

/-- The tail of `AlgoEngine.start_algo` (engine.py lines 136-146) once the
instance object `a0` has been constructed: add the name to the symbol's
interest set, call `start()` (which unconditionally sets Running), then
register the instance under its name. -/
def start_algo_register (es : EngineState) (name symbol : String)
    (a0 : AlgoState) : EngineState :=
  let a1 := start a0
  { es with
    instances := es.instances ++ [(name, a1)]
    registered := es.registered ++ [name]
    symbol_map :=
      if es.symbol_map.any (fun p => p.1 = symbol) then
        es.symbol_map.map (fun p => if p.1 = symbol then (p.1, p.2 ++ [name]) else p)
      else
        es.symbol_map ++ [(symbol, [name])] }

/-- Embedding of `AlgoEngine.start_algo` for a Randomized Best-Limit request with a live
contract: construct (and validate) the instance, then register and start
it. -/
def start_algo_bestLimit (es : EngineState) (name symbol : String)
    (volume price min_volume max_volume : ℚ) : EngineState :=
  start_algo_register es name symbol (bestLimitInit volume price min_volume max_volume)

/-- Exceptions that can escape the embedded Python operations. -/
inductive PyErr where
  | zeroDivision
  | keyErr
  | attrErr
deriving DecidableEq, Repr

/-- The fields of `vnpy.trader.object.ContractData` the core reads when
placing an order. -/
structure Contract where
  min_volume : ℚ
deriving DecidableEq, Repr

/-- Embedding of `AlgoEngine.send_order` (engine.py lines 176-204) with exception
tracking: reading `contract.min_volume` on a missing contract raises
(AttributeError); a volume that rounds to zero is refused with an empty
order id and no exception and no log; otherwise the order is submitted and
its id recorded.  `ok none` is the refusal, `ok (some v)` a submission of
rounded volume `v`. -/
def send_order_checked (contract : Option Contract) (volume : ℚ) :
    Except PyErr (Option ℚ) :=
  match contract with
  | none => .error .attrErr
  | some c =>
    let v := round_to volume c.min_volume
    if v = 0 then .ok none else .ok (some v)

/-- Embedding of `AlgoEngine.cancel_order` (engine.py lines 206-218) with exception
tracking: an unknown order id is logged and the operation returns normally;
a known order produces a cancel request.  The boolean records whether the
failure log was written. -/
def cancel_order_checked (order : Option OrderData) : Except PyErr Bool :=
  match order with
  | none => .ok true
  | some _ => .ok false

/-- The head of `AlgoEngine.start_algo` (engine.py lines 119-131) with
exception tracking: a missing contract is logged and an empty name
returned; then `self.algo_templates[template_name]` raises KeyError when
the template name is unknown; otherwise the fresh instance name is
returned. -/
def start_algo_checked (contract : Option Contract) (templateKnown : Bool)
    (freshName : String) : Except PyErr String :=
  match contract with
  | none => .ok ""
  | some _ => if templateKnown then .ok freshName else .error .keyErr

/-- Embedding of `AlgoTemplate.update_trade` with exception tracking: the division
`cost / traded` raises ZeroDivisionError exactly when the new cumulative
volume is zero. -/
def update_trade_checked (s : AlgoState) (t : TradeData) : Except PyErr AlgoState :=
  if s.traded + t.volume = 0 then .error .zeroDivision
  else .ok (update_trade s t).1

/-- A concrete instance that has been stopped with one still-active child
order cached (used as a counterexample input). -/
def stoppedWithOrder : AlgoState :=
  { mkAlgoState 100 10 with
    status := .stopped
    active_orders := [("o1", { vt_orderid := "o1", active := true })] }

/-- A concrete engine state holding one terminal, already evicted instance
whose outstanding order `o1` is still routed to it. -/
def evictedEngineState : EngineState :=
  { instances := [("a", { mkAlgoState 100 10 with status := .stopped })]
    registered := []
    symbol_map := [("SYM.EX", [])]
    orderid_map := [("o1", "a")] }

lemma runTrades_nil (s : AlgoState) : runTrades s [] = s := rfl

lemma runTrades_cons (s : AlgoState) (t : TradeData) (ts : List TradeData) :
    runTrades s (t :: ts) = runTrades (update_trade s t).1 ts := rfl

lemma update_trade_volume (s : AlgoState) (t : TradeData) :
    (update_trade s t).1.volume = s.volume := rfl

lemma update_trade_traded (s : AlgoState) (t : TradeData) :
    (update_trade s t).1.traded = s.traded + t.volume := rfl

/-- Invariant of the running-average recomputation: along any sequence of
positive-quantity trades, `traded` accumulates the quantities and
`traded_price * traded` accumulates the cost, provided `traded` starts
nonnegative. -/
lemma runTrades_invariant (ts : List TradeData) :
    ∀ s : AlgoState, (∀ t ∈ ts, 0 < t.volume) → 0 ≤ s.traded →
      (runTrades s ts).traded = s.traded + tradeVolumeSum ts ∧
      (runTrades s ts).traded_price * (runTrades s ts).traded =
        s.traded_price * s.traded + tradeCostSum ts := by
  induction ts with
  | nil =>
    intro s _ _
    simp [runTrades_nil, tradeVolumeSum, tradeCostSum]
  | cons t ts ih =>
    intro s hpos htr
    have hpos_t : 0 < t.volume := hpos t (List.mem_cons_self t ts)
    have hpos_ts : ∀ u ∈ ts, 0 < u.volume := fun u hu => hpos u (List.mem_cons_of_mem t hu)
    have htr' : 0 ≤ (update_trade s t).1.traded := by
      rw [update_trade_traded]
      positivity
    obtain ⟨h1, h2⟩ := ih (update_trade s t).1 hpos_ts htr'
    have hne : s.traded + t.volume ≠ 0 := by positivity
    constructor
    · rw [runTrades_cons, h1, update_trade_traded]
      simp [tradeVolumeSum]
      ring
    · rw [runTrades_cons, h2, update_trade_traded]
      have hcost : (update_trade s t).1.traded_price * (s.traded + t.volume) =
          s.traded_price * s.traded + t.price * t.volume := by
        show (s.traded_price * s.traded + t.price * t.volume) / (s.traded + t.volume) *
            (s.traded + t.volume) = s.traded_price * s.traded + t.price * t.volume
        field_simp
      rw [hcost]
      simp [tradeCostSum]
      ring

lemma cancel_all_fst (s : AlgoState) : (cancel_all s).1 = s := by
  unfold cancel_all
  split <;> rfl

lemma cancel_all_requests (s : AlgoState) :
    (cancel_all s).2 = s.active_orders.map (fun e => e.1) := by
  unfold cancel_all
  split_ifs with h
  · rw [h]
    rfl
  · rfl

lemma update_order_traded (s : AlgoState) (o : OrderData) :
    (update_order s o).1.traded = s.traded := rfl

lemma update_order_inactive_cache (s : AlgoState) (id : String) :
    (update_order s ⟨id, false⟩).1.active_orders =
      s.active_orders.filter (fun e => e.1 ≠ id) := by
  show (if s.active_orders.any (fun e => e.1 = id) then
      dictPop id s.active_orders else s.active_orders) =
    s.active_orders.filter (fun e => e.1 ≠ id)
  split_ifs with h
  · rfl
  · rw [List.any_eq_true] at h
    push_neg at h
    refine (List.filter_eq_self.mpr ?_).symm
    intro e he
    simpa using (h e he)

lemma foldl_inactive_empty (ks : List String) :
    ∀ a : AlgoState, (∀ e ∈ a.active_orders, e.1 ∈ ks) →
      (List.foldl (fun st id => (update_order st ⟨id, false⟩).1) a ks).active_orders = [] := by
  induction ks with
  | nil =>
    intro a h
    simpa using List.eq_nil_iff_forall_not_mem.mpr
      (fun e he => (List.not_mem_nil e.1 (h e he)))
  | cons k ks ih =>
    intro a h
    rw [List.foldl_cons]
    apply ih
    intro e he
    rw [update_order_inactive_cache] at he
    rw [List.mem_filter] at he
    obtain ⟨he1, he2⟩ := he
    have : e.1 ∈ k :: ks := h e he1
    rcases List.mem_cons.mp this with h1 | h1
    · exact absurd h1 (by simpa using he2)
    · exact h1

lemma sysStep_traded_le (s : SysState) (e : Ev)
    (h : ∀ t : TradeData, e = Ev.tradeEv t → 0 ≤ t.volume) :
    (sysStep s e).algo.traded ≤ s.algo.traded + evVol e := by
  cases e with
  | startEv => simp [sysStep, start, evVol]
  | stopEv => simp [sysStep, stop, cancel_all_fst, evVol]
  | pauseEv => simp [sysStep, pause, evVol]
  | resumeEv => simp [sysStep, resume, evVol]
  | finishEv => simp [sysStep, finish, cancel_all_fst, evVol]
  | tickEv t =>
    simp only [sysStep, update_tick, evVol]
    split <;> simp
  | timerEv =>
    simp only [sysStep, update_timer, evVol]
    split <;> simp
  | placeEv id p v =>
    simp only [sysStep, evVol]
    split <;> simp
  | orderEv o =>
    simp only [sysStep, evVol]
    split <;> simp [update_order_traded]
  | tradeEv t =>
    have ht : 0 ≤ t.volume := h t rfl
    simp only [sysStep, evVol]
    split
    · simp [update_trade_traded]
    · linarith

lemma evTradeSum_cons (e : Ev) (evs : List Ev) :
    evTradeSum (e :: evs) = evVol e + evTradeSum evs := by
  cases e <;> simp [evTradeSum, evVol]

lemma sysRun_traded_le (evs : List Ev) :
    ∀ s : SysState, (∀ t : TradeData, Ev.tradeEv t ∈ evs → 0 ≤ t.volume) →
      (sysRun s evs).algo.traded ≤ s.algo.traded + evTradeSum evs := by
  induction evs with
  | nil =>
    intro s _
    simp [sysRun, evTradeSum]
  | cons e evs ih =>
    intro s h
    have h1 : (sysStep s e).algo.traded ≤ s.algo.traded + evVol e :=
      sysStep_traded_le s e (fun t ht => h t (by rw [ht]; exact List.mem_cons_self _ _))
    have h2 := ih (sysStep s e) (fun t ht => h t (List.mem_cons_of_mem e ht))
    rw [sysRun] at h2 ⊢
    rw [List.foldl_cons]
    rw [evTradeSum_cons]
    linarith

lemma sysStep_volume (s : SysState) (e : Ev) :
    (sysStep s e).algo.volume = s.algo.volume := by
  cases e with
  | startEv => rfl
  | stopEv => simp [sysStep, stop, cancel_all_fst]
  | pauseEv => rfl
  | resumeEv => rfl
  | finishEv => simp [sysStep, finish, cancel_all_fst]
  | tickEv t =>
    simp only [sysStep, update_tick]
    split <;> rfl
  | timerEv =>
    simp only [sysStep, update_timer]
    split <;> rfl
  | placeEv id p v =>
    simp only [sysStep]
    split <;> rfl
  | orderEv o =>
    simp only [sysStep]
    split <;> rfl
  | tradeEv t =>
    simp only [sysStep]
    split <;> rfl

lemma sysRun_volume (evs : List Ev) :
    ∀ s : SysState, (sysRun s evs).algo.volume = s.algo.volume := by
  induction evs with
  | nil => intro s; rfl
  | cons e evs ih =>
    intro s
    rw [sysRun, List.foldl_cons]
    have h := ih (sysStep s e)
    rw [sysRun] at h
    rw [h, sysStep_volume]

lemma lookupInstance_cons (name : String) (e : String × AlgoState)
    (l : List (String × AlgoState)) :
    lookupInstance name (e :: l) =
      if e.1 = name then some e.2 else lookupInstance name l := by
  by_cases h : e.1 = name
  · simp [lookupInstance, List.find?_cons_of_pos, h]
  · simp [lookupInstance, List.find?_cons_of_neg, h]

lemma updInstance_cons (name : String) (f : AlgoState → AlgoState)
    (e : String × AlgoState) (l : List (String × AlgoState)) :
    updInstance name f (e :: l) =
      (if e.1 = name then (e.1, f e.2) else e) :: updInstance name f l := by
  simp only [updInstance, List.map_cons]

lemma lookupInstance_updInstance (name : String) (f : AlgoState → AlgoState)
    (l : List (String × AlgoState)) :
    lookupInstance name (updInstance name f l) = (lookupInstance name l).map f := by
  induction l with
  | nil => rfl
  | cons e l ih =>
    by_cases h : e.1 = name
    · simp [updInstance_cons, lookupInstance_cons, h]
    · simp [updInstance_cons, lookupInstance_cons, h, ih]

lemma dictInsert_key_mem (k : String) (v : OrderData)
    (l : List (String × OrderData)) :
    (dictInsert k v l).any (fun e => e.1 = k) = true := by
  unfold dictInsert
  split_ifs with h
  · rw [List.any_eq_true] at h ⊢
    obtain ⟨e, he, hk⟩ := h
    have hek : e.1 = k := by simpa using hk
    refine ⟨(k, v), ?_, by simp⟩
    have hmap :=
      List.mem_map_of_mem (fun e : String × OrderData => if e.1 = k then (k, v) else e) he
    simp only [if_pos hek] at hmap
    exact hmap
  · rw [List.any_eq_true]
    exact ⟨(k, v), by simp, by simp⟩

lemma any_filter_ne (l : List (String × OrderData)) (k : String) :
    (l.filter (fun e => e.1 ≠ k)).any (fun e => e.1 = k) = false := by
  rw [List.any_eq_false]
  intro e he
  rw [List.mem_filter] at he
  simpa using he.2

lemma update_order_inactive_cache_any (s : AlgoState) (o : OrderData)
    (h : o.active = false) :
    (update_order s o).1.active_orders =
      s.active_orders.filter (fun e => e.1 ≠ o.vt_orderid) := by
  obtain ⟨id, act⟩ := o
  simp only at h
  subst h
  exact update_order_inactive_cache s id

/-- C1: for every instance and every sequence of trade events with positive
quantities delivered via `update_trade`, `traded` (filledVolume) equals the
sum of the quantities and `traded_price` (filledAveragePrice) equals the
volume-weighted mean of all (price, quantity) pairs seen so far: the
running-average recomputation coincides with the full-history definition. -/
theorem C1_fill_accounting (volume price : ℚ) (ts : List TradeData)
    (hpos : ∀ t ∈ ts, 0 < t.volume) :
    (runTrades (mkAlgoState volume price) ts).traded = tradeVolumeSum ts ∧
    (runTrades (mkAlgoState volume price) ts).traded_price =
      tradeCostSum ts / tradeVolumeSum ts := by
  obtain ⟨h1, h2⟩ :=
    runTrades_invariant ts (mkAlgoState volume price) hpos (le_refl 0)
  rw [show (mkAlgoState volume price).traded = 0 from rfl] at h1 h2
  rw [show (mkAlgoState volume price).traded_price = 0 from rfl] at h2
  rw [zero_add] at h1
  rw [mul_zero, zero_add] at h2
  refine ⟨h1, ?_⟩
  rcases ts with _ | ⟨t, ts'⟩
  · show (mkAlgoState volume price).traded_price = tradeCostSum [] / tradeVolumeSum []
    simp [mkAlgoState, tradeCostSum, tradeVolumeSum]
  · have hnn : 0 ≤ (ts'.map (fun u => u.volume)).sum := by
      apply List.sum_nonneg
      intro x hx
      rw [List.mem_map] at hx
      obtain ⟨u, hu, rfl⟩ := hx
      exact le_of_lt (hpos u (List.mem_cons_of_mem t hu))
    have hpt : 0 < t.volume := hpos t (List.mem_cons_self t ts')
    have hsum : 0 < tradeVolumeSum (t :: ts') := by
      have : tradeVolumeSum (t :: ts') = t.volume + (ts'.map (fun u => u.volume)).sum := by
        simp [tradeVolumeSum]
      rw [this]
      linarith
    rw [h1] at h2
    exact (eq_div_iff (ne_of_gt hsum)).mpr h2

/-- Witness for C1 at a concrete run: two fills of quantity 2 at prices 10
and 20 give cumulative volume 4 and weighted average price 15. -/
theorem C1_fill_accounting_witness :
    (runTrades (mkAlgoState 100 7) [⟨"a", 10, 2⟩, ⟨"a", 20, 2⟩]).traded =
      tradeVolumeSum [⟨"a", 10, 2⟩, ⟨"a", 20, 2⟩] ∧
    (runTrades (mkAlgoState 100 7) [⟨"a", 10, 2⟩, ⟨"a", 20, 2⟩]).traded_price =
      tradeCostSum [⟨"a", 10, 2⟩, ⟨"a", 20, 2⟩] /
        tradeVolumeSum [⟨"a", 10, 2⟩, ⟨"a", 20, 2⟩] :=
  C1_fill_accounting 100 7 [⟨"a", 10, 2⟩, ⟨"a", 20, 2⟩]
    (by
      intro t ht
      rcases List.mem_cons.mp ht with rfl | ht
      · norm_num
      · rcases List.mem_cons.mp ht with rfl | ht
        · norm_num
        · cases ht)

/-- C2 as stated is false: `traded ≤ volume` is not enforced by the code.
From a fresh instance with total volume 1, starting, placing a child order
and receiving a trade event of quantity 2 for it yields `traded = 2 > 1`. -/
theorem C2_counterexample :
    ¬ ((sysRun (sysInit 1 10)
          [.startEv, .placeEv "o" 10 1, .tradeEv ⟨"o", 10, 2⟩]).algo.traded ≤
        (sysRun (sysInit 1 10)
          [.startEv, .placeEv "o" 10 1, .tradeEv ⟨"o", 10, 2⟩]).algo.volume) := by
  norm_num [sysRun, sysInit, sysStep, mkAlgoState, start, update_trade, List.foldl]

/-- C2 amended: `traded ≤ volume` holds in every state reachable from a
fresh instance by any sequence of engine operations and external events in
which trade quantities are nonnegative and their total does not exceed the
instance's total volume; the code itself adds trade quantities without any
cap. -/
theorem C2_traded_le_volume (volume price : ℚ) (evs : List Ev)
    (hnn : ∀ t : TradeData, Ev.tradeEv t ∈ evs → 0 ≤ t.volume)
    (hsum : evTradeSum evs ≤ volume) :
    (sysRun (sysInit volume price) evs).algo.traded ≤
      (sysRun (sysInit volume price) evs).algo.volume := by
  have h := sysRun_traded_le evs (sysInit volume price) hnn
  have hv := sysRun_volume evs (sysInit volume price)
  rw [show (sysInit volume price).algo.traded = 0 from rfl, zero_add] at h
  rw [show (sysInit volume price).algo.volume = volume from rfl] at hv
  rw [hv]
  linarith

/-- Witness for C2 amended: a start, one placement and one full fill of the
total volume keep `traded ≤ volume`. -/
theorem C2_traded_le_volume_witness :
    (sysRun (sysInit 1 10)
        [.startEv, .placeEv "o" 10 1, .tradeEv ⟨"o", 10, 1⟩]).algo.traded ≤
      (sysRun (sysInit 1 10)
        [.startEv, .placeEv "o" 10 1, .tradeEv ⟨"o", 10, 1⟩]).algo.volume :=
  C2_traded_le_volume 1 10 [.startEv, .placeEv "o" 10 1, .tradeEv ⟨"o", 10, 1⟩]
    (by
      intro t ht
      simp only [List.mem_cons, List.not_mem_nil, or_false] at ht
      rcases ht with he | he | he
      · exact absurd he (by simp)
      · exact absurd he (by simp)
      · rw [Ev.tradeEv.injEq] at he
        rw [he]
        norm_num)
    (by norm_num [evTradeSum])

/-- C3 as stated is false: immediately after `stop()` the active-order
cache can be nonempty, because `cancel_all` only requests cancellation and
the cache shrinks only when the inactive order updates arrive.  Reachable
run: start, place an order, receive its active order update, stop. -/
theorem C3_counterexample :
    (sysRun (sysInit 100 10)
        [.startEv, .placeEv "o1" 10 10, .orderEv ⟨"o1", true⟩, .stopEv]).algo.status =
      .stopped ∧
    (sysRun (sysInit 100 10)
        [.startEv, .placeEv "o1" 10 10, .orderEv ⟨"o1", true⟩, .stopEv]).algo.active_orders ≠
      [] := by
  norm_num [sysRun, sysInit, sysStep, mkAlgoState, start, stop, cancel_all,
    update_order, dictInsert, List.foldl]

/-- C3 amended: `stop()` (resp. `finish()`) forces the terminal status and
requests cancellation of every cached child order, but does not clear the
cache; the cache is empty once an inactive order update has been processed
for every cached order id (eventually-empty, not immediately-empty). -/
theorem C3_stop_cancels_then_eventually_empty (s : AlgoState) :
    (stop s).1.status = .stopped ∧
    (finish s).1.status = .finished ∧
    (stop s).2 = s.active_orders.map (fun e => e.1) ∧
    (finish s).2 = s.active_orders.map (fun e => e.1) ∧
    (List.foldl (fun st id => (update_order st ⟨id, false⟩).1) (stop s).1
        ((stop s).1.active_orders.map (fun e => e.1))).active_orders = [] := by
  refine ⟨?_, ?_, ?_, ?_, ?_⟩
  · rw [stop, cancel_all_fst]
  · rw [finish, cancel_all_fst]
  · rw [stop, cancel_all_requests]
  · rw [finish, cancel_all_requests]
  · apply foldl_inactive_empty
    intro e he
    exact List.mem_map_of_mem (fun e => e.1) he

/-- C4: while the status is Paused, a market tick or timer pulse never
reaches the strategy's `on_tick`/`on_timer` callback and never changes the
template state, and an order placement request is refused; while order and
trade updates always update the active-order cache (insert while active,
remove when inactive) and the fill statistics and always invoke
`on_order`/`on_trade`, whatever the status. -/
theorem C4_paused_gating (s s' : AlgoState) (tk : TickData) (o : OrderData)
    (t : TradeData) (p v : ℚ) (h : s.status = .paused) :
    update_tick s tk = (s, false) ∧
    update_timer s = (s, false) ∧
    requestOrder s p v = none ∧
    (update_order s' o).2 = true ∧
    (update_trade s' t).2 = true ∧
    (update_trade s' t).1.traded = s'.traded + t.volume ∧
    (o.active = true →
      ((update_order s' o).1.active_orders.any (fun e => e.1 = o.vt_orderid)) = true) ∧
    (o.active = false →
      ((update_order s' o).1.active_orders.any (fun e => e.1 = o.vt_orderid)) = false) := by
  refine ⟨?_, ?_, ?_, rfl, rfl, rfl, ?_, ?_⟩
  · rw [update_tick, if_neg (by rw [h]; simp)]
  · rw [update_timer, if_neg (by rw [h]; simp)]
  · rw [requestOrder, if_pos (by rw [h]; simp)]
  · intro ha
    show ((if o.active then dictInsert o.vt_orderid o s'.active_orders
        else if s'.active_orders.any (fun e => e.1 = o.vt_orderid) then
          dictPop o.vt_orderid s'.active_orders
        else s'.active_orders).any (fun e => e.1 = o.vt_orderid)) = true
    rw [if_pos ha]
    exact dictInsert_key_mem o.vt_orderid o s'.active_orders
  · intro ha
    rw [update_order_inactive_cache_any s' o ha]
    exact any_filter_ne s'.active_orders o.vt_orderid

/-- Witness for C4 at a concrete paused instance: the tick and timer are
dropped, the placement is refused, and the order/trade bookkeeping and
callbacks still run. -/
theorem C4_paused_gating_witness :
    update_tick (mkAlgoState 100 10) ⟨9, 9⟩ = (mkAlgoState 100 10, false) ∧
    update_timer (mkAlgoState 100 10) = (mkAlgoState 100 10, false) ∧
    requestOrder (mkAlgoState 100 10) 10 5 = none ∧
    (update_order (mkAlgoState 50 9) ⟨"o1", true⟩).2 = true ∧
    (update_trade (mkAlgoState 50 9) ⟨"o1", 9, 3⟩).2 = true ∧
    (update_trade (mkAlgoState 50 9) ⟨"o1", 9, 3⟩).1.traded =
      (mkAlgoState 50 9).traded + (3 : ℚ) ∧
    ((true : Bool) = true →
      ((update_order (mkAlgoState 50 9) ⟨"o1", true⟩).1.active_orders.any
        (fun e => e.1 = "o1")) = true) ∧
    ((true : Bool) = false →
      ((update_order (mkAlgoState 50 9) ⟨"o1", true⟩).1.active_orders.any
        (fun e => e.1 = "o1")) = false) :=
  C4_paused_gating (mkAlgoState 100 10) (mkAlgoState 50 9) ⟨9, 9⟩ ⟨"o1", true⟩
    ⟨"o1", 9, 3⟩ 10 5 rfl

set_option maxRecDepth 4000 in
/-- C5 as stated is false: with total volume 100, duration 100 pulses and
interval 10 pulses, the run of 100 timer pulses does not contain 10 slice
placement attempts — the duration-expiry check runs before the interval
check, so the boundary at pulse 100 finishes the algorithm instead of
placing the tenth slice. -/
theorem C5_counterexample : (twapScenario 100).2.length ≠ 10 := by
  norm_num [twapScenario, twapScenarioInit, twapScenarioTick, twapPulses,
    twap_update_timer, twap_on_timer, mkTwapState, mkAlgoState, start, finish,
    cancel_all, requestOrder, round_to, round]

set_option maxRecDepth 4000 in
/-- C5 amended: the scenario produces exactly 9 slice placement attempts of
size 10, at the 10-pulse boundaries 10, 20, ..., 90; the 10th boundary
coincides with duration expiry, where the algorithm force-finishes instead
of slicing.  With no trade events the instance is not finished after 99
pulses, is Finished after pulse 100, and has `traded = 0`. -/
theorem C5_twap_scenario :
    (twapScenario 100).2 =
      [(10, 10), (20, 10), (30, 10), (40, 10), (50, 10), (60, 10), (70, 10),
        (80, 10), (90, 10)] ∧
    (twapScenario 99).1.algo.status ≠ .finished ∧
    (twapScenario 100).1.algo.status = .finished ∧
    (twapScenario 100).1.algo.traded = 0 := by
  norm_num [twapScenario, twapScenarioInit, twapScenarioTick, twapPulses,
    twap_update_timer, twap_on_timer, mkTwapState, mkAlgoState, start, finish,
    cancel_all, requestOrder, round_to, round]
  decide

/-- C6 as stated is false: `start()` does not leave the status unchanged
from the terminal state Stopped — it unconditionally sets Running. -/
theorem C6_counterexample :
    (start { mkAlgoState 100 10 with status := .stopped }).status ≠ .stopped := by
  decide

/-- C6 amended: `start()` sets the status to Running from every state,
including Stopped and Finished — there is no terminal-state guard; the
intended Paused-to-Running transition is the special case the engine
exercises, and no other field of the instance changes. -/
theorem C6_start_unconditional (s : AlgoState) :
    (start s).status = .running ∧
    (s.status = .paused → (start s).status = .running) ∧
    (start s).traded = s.traded ∧
    (start s).traded_price = s.traded_price ∧
    (start s).volume = s.volume ∧
    (start s).price = s.price ∧
    (start s).active_orders = s.active_orders :=
  ⟨rfl, fun _ => rfl, rfl, rfl, rfl, rfl, rfl⟩

/-- C7: the code contradicts the claim (and its own failure log): a
Randomized Best-Limit instance with `min_volume = 0` is driven to Finished
by its constructor, but `AlgoEngine.start_algo` then unconditionally calls
`start()`, so after the start request the registered instance's status is
Running. -/
theorem C7_invalid_params_instance_runs :
    (bestLimitInit 100 10 0 0).status = .finished ∧
    lookupInstance "BestLimitAlgo_1"
        (start_algo_bestLimit ⟨[], [], [("SYM.EX", [])], []⟩ "BestLimitAlgo_1"
          "SYM.EX" 100 10 0 0).instances =
      some { mkAlgoState 100 10 with status := .running } ∧
    (start_algo_bestLimit ⟨[], [], [("SYM.EX", [])], []⟩ "BestLimitAlgo_1"
        "SYM.EX" 100 10 0 0).registered = ["BestLimitAlgo_1"] := by
  norm_num [start_algo_bestLimit, start_algo_register, bestLimitInit,
    mkAlgoState, start, finish, cancel_all, lookupInstance, List.find?]

/-- C8 as stated is false on its last part: the order-id index entry is
not removed when the terminal (inactive) order update for the order id
arrives.  Concrete input: an evicted, stopped instance `a` whose order `o1`
is still routed; delivering the terminal order update for `o1` leaves
`orderid_algo_map` unchanged. -/
theorem C8_counterexample :
    evictedEngineState.registered = [] ∧
    (lookupInstance "a" evictedEngineState.instances).map (fun a => a.status) =
      some .stopped ∧
    (process_order_event evictedEngineState ⟨"o1", false⟩).orderid_map =
      [("o1", "a")] := by
  norm_num [evictedEngineState, process_order_event, lookupOwner, lookupInstance,
    updInstance, update_order, mkAlgoState, List.find?]

/-- C8 amended: eviction on `put_algo_event` removes a terminal registered
instance from the name map and every symbol-interest set but touches
neither the order-id index nor the instance objects, so trade events for
its outstanding orders are still forwarded to it (late fills still update
`traded`); however the order-id index entries are never removed — order
updates, terminal or not, leave `orderid_algo_map` unchanged. -/
theorem C8_eviction_keeps_orderid_index (es : EngineState) (name : String)
    (t : TradeData) (a : AlgoState)
    (ha : lookupInstance name es.instances = some a)
    (hown : lookupOwner t.vt_orderid es.orderid_map = some name) :
    (put_algo_event es name).orderid_map = es.orderid_map ∧
    (put_algo_event es name).instances = es.instances ∧
    (name ∈ es.registered → a.status = .stopped ∨ a.status = .finished →
      (name ∉ (put_algo_event es name).registered ∧
        ∀ p ∈ (put_algo_event es name).symbol_map, name ∉ p.2)) ∧
    lookupInstance name (process_trade_event es t).instances =
      some (update_trade a t).1 ∧
    (∀ o : OrderData, (process_order_event es o).orderid_map = es.orderid_map) := by
  refine ⟨?_, ?_, ?_, ?_, ?_⟩
  · unfold put_algo_event
    rw [ha]
    dsimp only
    split_ifs <;> rfl
  · unfold put_algo_event
    rw [ha]
    dsimp only
    split_ifs <;> rfl
  · intro hreg hterm
    unfold put_algo_event
    rw [ha]
    dsimp only
    rw [if_pos ⟨hreg, hterm⟩]
    constructor
    · intro hmem
      rw [List.mem_filter] at hmem
      simpa using hmem.2
    · intro p hp
      rw [List.mem_map] at hp
      obtain ⟨q, _, rfl⟩ := hp
      intro hmem
      rw [List.mem_filter] at hmem
      simpa using hmem.2
  · unfold process_trade_event
    rw [hown]
    show lookupInstance name
        (updInstance name (fun a => (update_trade a t).1) es.instances) = _
    rw [lookupInstance_updInstance, ha]
    rfl
  · intro o
    unfold process_order_event
    cases h2 : lookupOwner o.vt_orderid es.orderid_map <;> rfl

/-- Witness for C8 amended at a concrete engine state: a registered stopped
instance with one routed order; eviction and late-event routing behave as
the amended claim states. -/
theorem C8_eviction_keeps_orderid_index_witness :
    (put_algo_event
        ⟨[("a", { mkAlgoState 100 10 with status := .stopped })], ["a"],
          [("SYM.EX", ["a"])], [("o1", "a")]⟩ "a").orderid_map =
      (⟨[("a", { mkAlgoState 100 10 with status := .stopped })], ["a"],
          [("SYM.EX", ["a"])], [("o1", "a")]⟩ : EngineState).orderid_map ∧
    (put_algo_event
        ⟨[("a", { mkAlgoState 100 10 with status := .stopped })], ["a"],
          [("SYM.EX", ["a"])], [("o1", "a")]⟩ "a").instances =
      (⟨[("a", { mkAlgoState 100 10 with status := .stopped })], ["a"],
          [("SYM.EX", ["a"])], [("o1", "a")]⟩ : EngineState).instances ∧
    ("a" ∈ (⟨[("a", { mkAlgoState 100 10 with status := .stopped })], ["a"],
          [("SYM.EX", ["a"])], [("o1", "a")]⟩ : EngineState).registered →
      ({ mkAlgoState 100 10 with status := .stopped } : AlgoState).status = .stopped ∨
        ({ mkAlgoState 100 10 with status := .stopped } : AlgoState).status = .finished →
      ("a" ∉ (put_algo_event
          ⟨[("a", { mkAlgoState 100 10 with status := .stopped })], ["a"],
            [("SYM.EX", ["a"])], [("o1", "a")]⟩ "a").registered ∧
        ∀ p ∈ (put_algo_event
            ⟨[("a", { mkAlgoState 100 10 with status := .stopped })], ["a"],
              [("SYM.EX", ["a"])], [("o1", "a")]⟩ "a").symbol_map, "a" ∉ p.2)) ∧
    lookupInstance "a"
        (process_trade_event
          ⟨[("a", { mkAlgoState 100 10 with status := .stopped })], ["a"],
            [("SYM.EX", ["a"])], [("o1", "a")]⟩ ⟨"o1", 10, 1⟩).instances =
      some (update_trade { mkAlgoState 100 10 with status := .stopped } ⟨"o1", 10, 1⟩).1 ∧
    (∀ o : OrderData,
      (process_order_event
          ⟨[("a", { mkAlgoState 100 10 with status := .stopped })], ["a"],
            [("SYM.EX", ["a"])], [("o1", "a")]⟩ o).orderid_map =
        (⟨[("a", { mkAlgoState 100 10 with status := .stopped })], ["a"],
            [("SYM.EX", ["a"])], [("o1", "a")]⟩ : EngineState).orderid_map) :=
  C8_eviction_keeps_orderid_index
    ⟨[("a", { mkAlgoState 100 10 with status := .stopped })], ["a"],
      [("SYM.EX", ["a"])], [("o1", "a")]⟩ "a" ⟨"o1", 10, 1⟩
    { mkAlgoState 100 10 with status := .stopped }
    (by norm_num [lookupInstance, List.find?])
    (by norm_num [lookupOwner, List.find?])

/-- C9 as stated is false: the division in the fill accounting is not
handled locally.  A trade event of quantity 0 delivered to an instance
with zero filled volume makes `update_trade` divide by zero
(ZeroDivisionError), which unwinds past the engine boundary. -/
theorem C9_counterexample :
    update_trade_checked (mkAlgoState 100 10) ⟨"o1", 5, 0⟩ =
      .error .zeroDivision := by
  norm_num [update_trade_checked, mkAlgoState]

/-- C9 amended: the refusal branches the engine checks — unknown contract
at start, unknown order at cancel, volume rounding to zero at placement —
are handled locally and return without raising; but the division in the
fill accounting is unguarded: `update_trade` raises ZeroDivisionError
whenever the previously filled volume plus the trade's quantity is zero,
and returns normally otherwise. -/
theorem C9_totality_except_fill_division (c : Contract) (v : ℚ)
    (oc : Option Contract) (o : Option OrderData) (fresh : String)
    (s : AlgoState) (t : TradeData) (h : s.traded + t.volume ≠ 0) :
    (∃ r, send_order_checked (some c) v = .ok r) ∧
    (∃ r, cancel_order_checked o = .ok r) ∧
    (∃ r, start_algo_checked oc true fresh = .ok r) ∧
    update_trade_checked s t = .ok (update_trade s t).1 := by
  refine ⟨?_, ?_, ?_, ?_⟩
  · by_cases hz : round_to v c.min_volume = 0
    · exact ⟨none, by unfold send_order_checked; dsimp only; rw [if_pos hz]⟩
    · exact ⟨some (round_to v c.min_volume), by
        unfold send_order_checked; dsimp only; rw [if_neg hz]⟩
  · cases o with
    | none => exact ⟨true, rfl⟩
    | some w => exact ⟨false, rfl⟩
  · cases oc with
    | none => exact ⟨"", rfl⟩
    | some w => exact ⟨fresh, rfl⟩
  · rw [update_trade_checked, if_neg h]

/-- Witness for C9 amended at concrete inputs: a contract with increment 1
and requested volume 3, an unknown order, an unknown contract at start, and
a quantity-1 trade on a fresh instance. -/
theorem C9_totality_except_fill_division_witness :
    (∃ r, send_order_checked (some ⟨1⟩) 3 = .ok r) ∧
    (∃ r, cancel_order_checked none = .ok r) ∧
    (∃ r, start_algo_checked none true "TwapAlgo_1" = .ok r) ∧
    update_trade_checked (mkAlgoState 100 10) ⟨"o1", 10, 1⟩ =
      .ok (update_trade (mkAlgoState 100 10) ⟨"o1", 10, 1⟩).1 :=
  C9_totality_except_fill_division ⟨1⟩ 3 none none "TwapAlgo_1"
    (mkAlgoState 100 10) ⟨"o1", 10, 1⟩ (by norm_num [mkAlgoState])

/-- C10: `cancel_all` never modifies the instance state (in particular the
active-order cache), `stop`/`finish` inherit that, with an empty cache
`cancel_all` issues no engine cancel calls, and no template operation other
than `update_order` changes the active-order cache. -/
theorem C10_cancel_all_frame (s : AlgoState) (tk : TickData) (t : TradeData) :
    (cancel_all s).1 = s ∧
    (cancel_all { s with active_orders := [] }).2 = [] ∧
    (stop s).1.active_orders = s.active_orders ∧
    (finish s).1.active_orders = s.active_orders ∧
    (start s).active_orders = s.active_orders ∧
    (pause s).active_orders = s.active_orders ∧
    (resume s).active_orders = s.active_orders ∧
    (update_tick s tk).1.active_orders = s.active_orders ∧
    (update_timer s).1.active_orders = s.active_orders ∧
    (update_trade s t).1.active_orders = s.active_orders := by
  refine ⟨cancel_all_fst s, ?_, ?_, ?_, rfl, rfl, rfl, ?_, ?_, rfl⟩
  · simp [cancel_all]
  · rw [stop, cancel_all_fst]
  · rw [finish, cancel_all_fst]
  · simp only [update_tick]
    split <;> rfl
  · simp only [update_timer]
    split <;> rfl

end VnpyAlgo
